import Mathlib

/-!
Shallow embedding of the vulcain package (vulcain.go) and proofs about it.

The file models the functions of vulcain.go directly; the parts of the
repository that vulcain.go calls but whose files are absent (node.go,
json.go, pushers.go, url_rewriter.go, openapi.go) and the external
collaborators (httpsfv, net/url, kin-openapi, the transport pusher) are
modelled from the specification, each marked in its doc comment.
-/

namespace Vulcain

/-! ### HTTP headers -/

/-- An HTTP header multimap, as an ordered list of (name, value) pairs. -/
abbrev Headers := List (String × String)

/-- Go http.Header.Add: appends one value for the key. -/
def addHeader (h : Headers) (k v : String) : Headers := h ++ [(k, v)]

/-- Go http.Header.Set: replaces all values of the key. -/
def setHeader (h : Headers) (k v : String) : Headers :=
  h.filter (fun p => p.1 != k) ++ [(k, v)]

/-! ### The three package-level regexps

jsonRe        = `(?i)\bjson\b`
preferRe      = `\s*selector="?json-pointer"?`
notransformRe = `\bno-transform\b`

modelled over character lists.  `\b` is Go RE2's ASCII word boundary: the
word characters are [0-9A-Za-z_]. -/

def isWordChar (c : Char) : Bool := c.isAlphanum || c == '_'

/-- Case-insensitive literal match at the head of the text. -/
def headMatchCI : List Char → List Char → Bool
  | [], _ => true
  | _ :: _, [] => false
  | p :: ps, c :: cs => p.toLower == c.toLower && headMatchCI ps cs

/-- Case-sensitive literal match at the head of the text. -/
def headMatch : List Char → List Char → Bool
  | [], _ => true
  | _ :: _, [] => false
  | p :: ps, c :: cs => p == c && headMatch ps cs

/-- True when the text does not start with a word character. -/
def headNotWord : List Char → Bool
  | [] => true
  | c :: _ => !isWordChar c

/-- Whether the word-bounded literal `pat` (whose first and last characters
are word characters, as in both patterns above) occurs somewhere in the
text.  `prevW` records whether the character just before the current
position is a word character, so `!prevW` is exactly the left `\b`; the
right `\b` is `headNotWord` after the matched literal. -/
def occursWord (ci : Bool) (pat : List Char) : Bool → List Char → Bool
  | _, [] => false
  | prevW, c :: cs =>
    (!prevW && (if ci then headMatchCI pat (c :: cs) else headMatch pat (c :: cs))
        && headNotWord ((c :: cs).drop pat.length))
      || occursWord ci pat (isWordChar c) cs

/-- Model of jsonRe.MatchString. -/
def jsonMatch (s : String) : Bool := occursWord true "json".toList false s.toList

/-- Model of notransformRe.MatchString. -/
def notransformMatch (s : String) : Bool :=
  occursWord false "no-transform".toList false s.toList

/-- Strip an exact literal from the head of the text. -/
def stripLit : List Char → List Char → Option (List Char)
  | [], s => some s
  | _ :: _, [] => none
  | p :: ps, c :: cs => if p == c then stripLit ps cs else none

/-- preferRe match attempt at one position.  The leading `\s*` and the
trailing `"?` can match the empty string, so matchability at a position
reduces to the literal `selector=`, an optional double quote, then the
literal `json-pointer`. -/
def preferAt (s : List Char) : Bool :=
  match stripLit "selector=".toList s with
  | none => false
  | some r =>
    match r with
    | '"' :: r2 => headMatch "json-pointer".toList r2
    | r2 => headMatch "json-pointer".toList r2

/-- Does `f` hold at some position (suffix) of the text? -/
def anyPos (f : List Char → Bool) : List Char → Bool
  | [] => f []
  | c :: cs => f (c :: cs) || anyPos f cs

/-- Model of preferRe.MatchString. -/
def preferMatch (s : String) : Bool := anyPos preferAt s.toList

/-! ### Protocol gate -/

/-- Translation of Vulcain.IsValidResponse.  `prefers` is the request's
Prefer header: `none` when the key is absent, `some vs` (possibly empty)
when present.  `contentType` and `cacheControl` are the first values of the
respective response headers (Go's Header.Get). -/
def IsValidResponse (prefers : Option (List String)) (responseStatus : Int)
    (contentType cacheControl : String) : Bool :=
  if responseStatus < 200 ∨ responseStatus > 300
      ∨ jsonMatch contentType = false ∨ notransformMatch cacheControl = true then
    false
  else
    match prefers with
    | none => true
    | some ps => ps.any preferMatch

/-! ### Directive extraction -/

/-- The directive surfaces carried by one request: the raw value lists of the
Fields/Preload HTTP headers and of the fields/preload query parameters. -/
structure Request where
  fieldsHeaderVals : List String
  fieldsQueryVals : List String
  preloadHeaderVals : List String
  preloadQueryVals : List String
deriving DecidableEq

/-- A parsed structured-field list of path expressions (httpsfv.List
restricted to what the selector tree consumes: one JSON-pointer string per
member). -/
abbrev SfvList := List String

/-- The six results of extractFromRequest. -/
structure Extract where
  fields : SfvList
  preload : SfvList
  fieldsHeader : Bool
  fieldsQuery : Bool
  preloadHeader : Bool
  preloadQuery : Bool
deriving DecidableEq

/-- Translation of extractFromRequest.  `parse` stands for the external
httpsfv.UnmarshalList collaborator: `none` models a parse error, in which
case the Go variable keeps the nil list the failed call returned. -/
def extractFromRequest (parse : List String → Option SfvList) (req : Request) :
    Extract :=
  let fh :=
    if req.fieldsHeaderVals ≠ [] then
      match parse req.fieldsHeaderVals with
      | some l => (l, true)
      | none => (([] : SfvList), false)
    else (([] : SfvList), false)
  let fq :=
    if fh.2 = false ∧ req.fieldsQueryVals ≠ [] then
      match parse req.fieldsQueryVals with
      | some l => (l, true)
      | none => (([] : SfvList), false)
    else (fh.1, false)
  let ph :=
    if req.preloadHeaderVals ≠ [] then
      match parse req.preloadHeaderVals with
      | some l => (l, true)
      | none => (([] : SfvList), false)
    else (([] : SfvList), false)
  let pq :=
    if ph.2 = false ∧ req.preloadQueryVals ≠ [] then
      match parse req.preloadQueryVals with
      | some l => (l, true)
      | none => (([] : SfvList), false)
    else (ph.1, false)
  ⟨fq.1, pq.1, fh.2, fq.2, ph.2, pq.2⟩

/-! ### Selector tree

node.go is not part of src/; the selector-tree data model and operations
below are modelled from the specification (§3 Selector Node, §4.1 Selector
Tree).  The wildcard child is the child whose segment is "*". -/

/-- The two directive kinds tagging selector nodes. -/
inductive Directive where
  | preload
  | fields
deriving DecidableEq

/-- Modelled from the spec: one Selector Node.  `preloadSel`/`fieldsSel` say
which directives terminate exactly at this node; `children` maps literal
segments (or the wildcard segment "*") to child nodes. -/
inductive Node where
  | mk (preloadSel fieldsSel : Bool) (children : List (String × Node))

namespace Node

def preloadSel : Node → Bool
  | .mk p _ _ => p

def fieldsSel : Node → Bool
  | .mk _ f _ => f

def children : Node → List (String × Node)
  | .mk _ _ c => c

end Node

/-- Literal lookup of a child by segment. -/
def lookupChild : List (String × Node) → String → Option Node
  | [], _ => none
  | (k, n) :: rest, seg => if k == seg then some n else lookupChild rest seg

/-- Replace (or append) the child stored under a segment. -/
def setChild : List (String × Node) → String → Node → List (String × Node)
  | [], seg, n => [(seg, n)]
  | (k, m) :: rest, seg, n =>
    if k == seg then (k, n) :: rest else (k, m) :: setChild rest seg n

/-- Modelled from the spec (§4.1 build): walk/create nodes for every segment
of one path, tagging only the terminal node with the directive. -/
def insertPath (d : Directive) : List String → Node → Node
  | [], .mk p f c =>
    match d with
    | .preload => .mk true f c
    | .fields => .mk p true c
  | seg :: rest, .mk p f c =>
    let child := (lookupChild c seg).getD (.mk false false [])
    .mk p f (setChild c seg (insertPath d rest child))

/-- Modelled from the spec: split a slash-delimited JSON-pointer-style path
expression into its segments (one leading slash is not a segment). -/
def splitSegsAux : List Char → List Char → List String
  | acc, [] => [String.mk acc.reverse]
  | acc, c :: cs =>
    if c == '/' then String.mk acc.reverse :: splitSegsAux [] cs
    else splitSegsAux (c :: acc) cs

/-- Segments of one path expression; the empty expression selects the root. -/
def pointerSegments (p : String) : List String :=
  match p.toList with
  | [] => []
  | '/' :: cs => splitSegsAux [] cs
  | cs => splitSegsAux [] cs

/-- Modelled from the spec (§4.1 build): merge one directive list into the
tree.  Mirrors node.importPointers as called by Apply. -/
def importPointers (d : Directive) (l : SfvList) (n : Node) : Node :=
  l.foldl (fun t p => insertPath d (pointerSegments p) t) n

/-- Modelled from the spec (§4.1 matchChild): literal lookup first, wildcard
fallback second; no current node means no child. -/
def matchChild (t : Option Node) (seg : String) : Option Node :=
  match t with
  | none => none
  | some n =>
    match lookupChild n.children seg with
    | some c => some c
    | none => lookupChild n.children "*"

mutual

/-- Modelled from the spec (§4.1 isSelectedForFields, without the "no fields
directive at all" disjunct, which Apply passes separately as the
fieldsActive flag): the node or any descendant is fields-selected. -/
def hasFieldsSel : Node → Bool
  | .mk _ f c => f || anyChildFields c

def anyChildFields : List (String × Node) → Bool
  | [] => false
  | (_, n) :: rest => hasFieldsSel n || anyChildFields rest

end

/-- Modelled from the spec (§4.2): whether an object/array member whose
matched child node is `child` is kept in the output. -/
def keepMember (fieldsActive : Bool) (child : Option Node) : Bool :=
  match child with
  | some c => !fieldsActive || hasFieldsSel c
  | none => !fieldsActive

/-! ### JSON values -/

/-- A JSON document, as the traversal engine sees it (spec §9: a tagged
variant).  The byte-level parser is an external collaborator; the model
works on already-parsed values. -/
inductive JSON where
  | null
  | bool (b : Bool)
  | num (n : Int)
  | str (s : String)
  | arr (items : List JSON)
  | obj (members : List (String × JSON))

mutual

/-- Compact serialization, used only for the Content-Length bookkeeping
(string escaping is not modelled). -/
def JSON.serialize : JSON → String
  | .null => "null"
  | .bool true => "true"
  | .bool false => "false"
  | .num n => toString n
  | .str s => "\"" ++ s ++ "\""
  | .arr xs => "[" ++ serializeArr xs ++ "]"
  | .obj ms => "\x7b" ++ serializeObj ms ++ "\x7d"

def JSON.serializeArr : List JSON → String
  | [] => ""
  | [x] => x.serialize
  | x :: rest => x.serialize ++ "," ++ serializeArr rest

def JSON.serializeObj : List (String × JSON) → String
  | [] => ""
  | [(k, v)] => "\"" ++ k ++ "\":" ++ v.serialize
  | (k, v) :: rest => "\"" ++ k ++ "\":" ++ v.serialize ++ "," ++ serializeObj rest

end

/-! ### URLs, routes, pushers -/

/-- Model of net/url.URL as this library observes it: its String() form and
whether it is absolute.  `Oracles.urlParse` below stands for url.Parse. -/
structure URL where
  rep : String
  isAbs : Bool
deriving DecidableEq

/-- Opaque token for a kin-openapi routers.Route. -/
structure Route where
  tag : String
deriving DecidableEq

/-- Opaque token for a live waitPusher (pushers.go is not part of src/);
only identity matters to the model. -/
structure Pusher where
  id : String
deriving DecidableEq

/-- Failure modes of waitPusher.Push. -/
inductive PushErr where
  | alreadyPushed
  | other
deriving DecidableEq

/-- Outcome oracle for waitPusher.Push on a given URL string: `none` is
success, `some e` a failure.  The push-options headers the source builds
(cloned request headers, internal request id, Preload/Fields filtered via
node.httpList) only affect the pushed sub-request, never the response
headers or the return value, and are abstracted into this oracle. -/
abbrev PushOutcome := String → Option PushErr

/-- Translation of Vulcain.addPreloadHeader. -/
def addPreloadHeader (apiUrl : String) (h : Headers) (link : String)
    (nopush : Bool) : Headers :=
  let suffix := if nopush then "; nopush" else ""
  let link2 := if apiUrl.length > 0 then apiUrl ++ link else link
  addHeader h "Link" ("<" ++ link2 ++ ">; rel=preload; as=fetch" ++ suffix)

/-- Translation of Vulcain.push.  The request-context entry is
`Option (Option Pusher)`: `none` models a request context without the
ctxKey entry, where the unchecked type assertion
`req.Context().Value(ctxKey{}).(*waitPusher)` panics (result `none`);
`some none` models a stored typed-nil *waitPusher (the assertion succeeds
and the nil check fires). -/
def push (maxPushes : Int) (apiUrl : String) (ctxVal : Option (Option Pusher))
    (u : URL) (outcome : PushOutcome) (h : Headers) : Option (Bool × Headers) :=
  let url := u.rep
  if maxPushes = 0 ∨ u.isAbs = true then
    some (false, addPreloadHeader apiUrl h url true)
  else
    match ctxVal with
    | none => none
    | some none => some (false, addPreloadHeader apiUrl h url false)
    | some (some _) =>
      match outcome url with
      | none => some (true, h)
      | some .alreadyPushed => some (true, h)
      | some .other => some (false, addPreloadHeader apiUrl h url false)

/-- Vulcain.push under a request context produced by CreateRequestContext
(the package documentation requires CreateRequestContext to always be
called first), so the ctxKey entry is present and push cannot panic. -/
def pushChecked (maxPushes : Int) (apiUrl : String) (pusher : Option Pusher)
    (u : URL) (outcome : PushOutcome) (h : Headers) : Bool × Headers :=
  let url := u.rep
  if maxPushes = 0 ∨ u.isAbs = true then
    (false, addPreloadHeader apiUrl h url true)
  else
    match pusher with
    | none => (false, addPreloadHeader apiUrl h url false)
    | some _ =>
      match outcome url with
      | none => (true, h)
      | some .alreadyPushed => (true, h)
      | some .other => (false, addPreloadHeader apiUrl h url false)

/-- The pushed/fallback decision of push, which does not depend on the
header state. -/
def pushedDecision (maxPushes : Int) (pusher : Option Pusher) (u : URL)
    (outcome : PushOutcome) : Bool :=
  if maxPushes = 0 ∨ u.isAbs = true then false
  else
    match pusher with
    | none => false
    | some _ =>
      match outcome u.rep with
      | none => true
      | some .alreadyPushed => true
      | some .other => false

/-- Translation of Vulcain.CreateRequestContext: it always stores the value
returned by pushers.getPusherForRequest (possibly a typed nil pusher) under
ctxKey.  getPusherForRequest itself (pushers.go, not part of src/) is
abstracted as the stored value. -/
def CreateRequestContext (pusherForRequest : Option Pusher) :
    Option (Option Pusher) :=
  some pusherForRequest

theorem push_some (maxPushes : Int) (apiUrl : String) (pusher : Option Pusher)
    (u : URL) (outcome : PushOutcome) (h : Headers) :
    push maxPushes apiUrl (some pusher) u outcome h =
      some (pushChecked maxPushes apiUrl pusher u outcome h) := by
  unfold push pushChecked
  split
  · rfl
  · cases pusher with
    | none => rfl
    | some p =>
      simp only
      match outcome u.rep with
      | none => rfl
      | some .alreadyPushed => rfl
      | some .other => rfl

theorem pushChecked_fst (maxPushes : Int) (apiUrl : String)
    (pusher : Option Pusher) (u : URL) (outcome : PushOutcome) (h : Headers) :
    (pushChecked maxPushes apiUrl pusher u outcome h).1 =
      pushedDecision maxPushes pusher u outcome := by
  unfold pushChecked pushedDecision
  split
  · rfl
  · cases pusher with
    | none => rfl
    | some p =>
      simp only
      match outcome u.rep with
      | none => rfl
      | some .alreadyPushed => rfl
      | some .other => rfl

/-! ### Relation resolution -/

/-- The external collaborators of the traversal: url.Parse, the OpenAPI
route lookup for the request URL (openAPI.getRoute), openAPI.getRelation,
and urlRewriter (url_rewriter.go is not part of src/; the spec only says it
produces the resolved form of the relation URL, so it stays abstract).  The
node arguments of getRelation and urlRewriter are passed as the node's
pointer-path string (node.String()). -/
structure Oracles where
  urlParse : String → Option URL
  getRoute : Option Route
  getRelation : Route → String → String → String
  urlRewriter : URL → String → URL

/-- Translation of Vulcain.getOpenAPIRoute.  `openAPIConfigured` models
v.openAPI != nil; `osc.getRoute` the value of v.openAPI.getRoute(url). -/
def getOpenAPIRoute (openAPIConfigured : Bool) (osc : Oracles)
    (route : Option Route) (routeTested : Bool) : Option Route :=
  if routeTested = true ∨ openAPIConfigured = false then route else osc.getRoute

/-- Translation of Vulcain.parseRelation. -/
def parseRelation (osc : Oracles) (selector rel : String)
    (oaRoute : Option Route) : Except Unit (URL × Bool) :=
  let ru :=
    match oaRoute with
    | some r =>
      let oaRel := osc.getRelation r selector rel
      if oaRel ≠ "" then (oaRel, true) else (rel, false)
    | none => (rel, false)
  match osc.urlParse ru.1 with
  | some u => .ok (u, ru.2)
  | none => .error ()

/-! ### Apply -/

/-- The per-library configuration Apply reads. -/
structure Config where
  maxPushes : Int
  apiUrl : String
  openAPIConfigured : Bool

/-- The mutable state of Apply's traversal closure: the usePreloadLinks
flag, the lazily computed OpenAPI route, and the response headers that
push mutates. -/
structure ApplyState where
  usePreloadLinks : Bool
  oaRoute : Option Route
  oaRouteTested : Bool
  headers : Headers

/-- Translation of the relation-handling closure Apply passes to
traverseJSON (src lines 223-246).  `pusher` is the context entry stored by
CreateRequestContext.  The preloadHeader/fieldsHeader flags the source also
forwards only shape the pushed sub-request's headers, abstracted into the
push outcome oracle. -/
def applyCallback (cfg : Config) (osc : Oracles) (pusher : Option Pusher)
    (outcome : PushOutcome) (preloadQuery fieldsQuery : Bool)
    (s : ApplyState) (path : String) (n : Node) (val : String) :
    String × ApplyState :=
  let oaRoute := getOpenAPIRoute cfg.openAPIConfigured osc s.oaRoute s.oaRouteTested
  let s1 : ApplyState :=
    { s with oaRoute := oaRoute, oaRouteTested := true }
  match parseRelation osc path val oaRoute with
  | .error _ => ("", s1)
  | .ok r =>
    let newValue :=
      if (preloadQuery || fieldsQuery) && !r.2 then (osc.urlRewriter r.1 path).rep
      else ""
    if n.preloadSel then
      let pr := pushChecked cfg.maxPushes cfg.apiUrl pusher r.1 outcome s1.headers
      (newValue, { s1 with usePreloadLinks := !pr.1, headers := pr.2 })
    else (newValue, s1)

mutual

/-- Modelled from the spec (§4.2; json.go is not part of src/): rewrite the
JSON value in lock-step with the selector tree, threading the callback
state.  The callback is invoked for every string value whose current node
is preload-selected; an empty replacement string preserves the original
value (the source callback returns "" exactly when the document is not to
be rewritten). -/
def traverseJSON {S : Type} (fieldsActive : Bool)
    (cb : S → String → Node → String → String × S)
    (s : S) (path : String) (t : Option Node) : JSON → JSON × S
  | .str v =>
    match t with
    | some n =>
      if n.preloadSel then
        let r := cb s path n v
        (.str (if r.1 = "" then v else r.1), r.2)
      else (.str v, s)
    | none => (.str v, s)
  | .obj ms =>
    let r := traverseObj fieldsActive cb s path t ms
    (.obj r.1, r.2)
  | .arr xs =>
    let r := traverseArr fieldsActive cb s path t 0 xs
    (.arr r.1, r.2)
  | .null => (.null, s)
  | .bool b => (.bool b, s)
  | .num n => (.num n, s)

/-- Object members: compute the child node per key, omit pruned members
(omitted members never reach the callback), recurse on the rest. -/
def traverseObj {S : Type} (fieldsActive : Bool)
    (cb : S → String → Node → String → String × S)
    (s : S) (path : String) (t : Option Node) :
    List (String × JSON) → List (String × JSON) × S
  | [] => ([], s)
  | (k, v) :: rest =>
    let child := matchChild t k
    if keepMember fieldsActive child then
      let r1 := traverseJSON fieldsActive cb s (path ++ "/" ++ k) child v
      let r2 := traverseObj fieldsActive cb r1.2 path t rest
      ((k, r1.1) :: r2.1, r2.2)
    else traverseObj fieldsActive cb s path t rest

/-- Array members, by stringified index. -/
def traverseArr {S : Type} (fieldsActive : Bool)
    (cb : S → String → Node → String → String × S)
    (s : S) (path : String) (t : Option Node) (i : Nat) :
    List JSON → List JSON × S
  | [] => ([], s)
  | v :: rest =>
    let seg := toString i
    let child := matchChild t seg
    if keepMember fieldsActive child then
      let r1 := traverseJSON fieldsActive cb s (path ++ "/" ++ seg) child v
      let r2 := traverseArr fieldsActive cb r1.2 path t (i + 1) rest
      (r1.1 :: r2.1, r2.2)
    else traverseArr fieldsActive cb s path t (i + 1) rest

end

/-- Read-failure errors of io.ReadAll. -/
abbrev IOErr := String

/-- The selector tree Apply builds: preload pointers first, then fields
pointers, into one fresh tree (src lines 215-217). -/
def applyTree (e : Extract) : Node :=
  importPointers .fields e.fields
    (importPointers .preload e.preload (.mk false false []))

/-- The traversal step of Apply (src line 223): rewritten body plus final
callback state. -/
def applyTraversal (cfg : Config) (osc : Oracles)
    (parse : List String → Option SfvList) (pusher : Option Pusher)
    (outcome : PushOutcome) (req : Request) (responseHeaders : Headers)
    (body : JSON) : JSON × ApplyState :=
  let e := extractFromRequest parse req
  traverseJSON (!e.fields.isEmpty)
    (applyCallback cfg osc pusher outcome e.preloadQuery e.fieldsQuery)
    ⟨false, none, false, responseHeaders⟩ "" (some (applyTree e)) body

/-- Translation of Vulcain.Apply.  The response body arrives as
`Except IOErr JSON`: an error models an io.ReadAll failure, and the body is
taken already JSON-parsed (byte-level parsing belongs to the external
collaborator).  The 103 Early Hints block only touches the
ResponseWriter's own header map (temporarily, restoring it), never the
returned responseHeaders, and is omitted. -/
def Apply (cfg : Config) (osc : Oracles) (parse : List String → Option SfvList)
    (pusher : Option Pusher) (outcome : PushOutcome) (req : Request)
    (readResult : Except IOErr JSON) (responseHeaders : Headers) :
    Except IOErr (JSON × Headers) :=
  let e := extractFromRequest parse req
  match readResult with
  | .error err => .error err
  | .ok body =>
    let r := applyTraversal cfg osc parse pusher outcome req responseHeaders body
    let h1 :=
      if r.2.usePreloadLinks then addHeader r.2.headers "Vary" "Preload"
      else r.2.headers
    let h2 := setHeader h1 "Content-Length" (toString r.1.serialize.length)
    let h3 := if e.fieldsHeader then addHeader h2 "Vary" "Fields" else h2
    .ok (r.1, h3)

/-! ### A simulation principle for the traversal

The traversal's control flow (which members are visited, where the callback
fires) does not depend on the callback state, so two runs whose callbacks
preserve a relation between their states end related. -/

mutual

theorem traverseJSON_sim {S1 S2 : Type} (fa : Bool)
    (cb1 : S1 → String → Node → String → String × S1)
    (cb2 : S2 → String → Node → String → String × S2)
    (R : S1 → S2 → Prop)
    (hcb : ∀ s q path n v, R s q → R (cb1 s path n v).2 (cb2 q path n v).2) :
    ∀ (j : JSON) (s : S1) (q : S2) (path : String) (t : Option Node),
      R s q →
      R (traverseJSON fa cb1 s path t j).2 (traverseJSON fa cb2 q path t j).2
  | .null, _, _, _, _, h => h
  | .bool _, _, _, _, _, h => h
  | .num _, _, _, _, _, h => h
  | .str v, s, q, path, t, h => by
    cases t with
    | none => exact h
    | some n =>
      cases hp : n.preloadSel with
      | false => simp only [traverseJSON, hp]; exact h
      | true =>
        simp only [traverseJSON, hp, if_true]
        exact hcb s q path n v h
  | .obj ms, s, q, path, t, h => by
    simpa only [traverseJSON] using traverseObj_sim fa cb1 cb2 R hcb ms s q path t h
  | .arr xs, s, q, path, t, h => by
    simpa only [traverseJSON] using traverseArr_sim fa cb1 cb2 R hcb xs 0 s q path t h

theorem traverseObj_sim {S1 S2 : Type} (fa : Bool)
    (cb1 : S1 → String → Node → String → String × S1)
    (cb2 : S2 → String → Node → String → String × S2)
    (R : S1 → S2 → Prop)
    (hcb : ∀ s q path n v, R s q → R (cb1 s path n v).2 (cb2 q path n v).2) :
    ∀ (ms : List (String × JSON)) (s : S1) (q : S2) (path : String)
      (t : Option Node),
      R s q →
      R (traverseObj fa cb1 s path t ms).2 (traverseObj fa cb2 q path t ms).2
  | [], _, _, _, _, h => h
  | (k, v) :: rest, s, q, path, t, h => by
    cases hk : keepMember fa (matchChild t k) with
    | true =>
      have h1 := traverseJSON_sim fa cb1 cb2 R hcb v s q (path ++ "/" ++ k)
        (matchChild t k) h
      have h2 := traverseObj_sim fa cb1 cb2 R hcb rest _ _ path t h1
      simpa only [traverseObj, hk, if_true] using h2
    | false =>
      have h2 := traverseObj_sim fa cb1 cb2 R hcb rest s q path t h
      simpa only [traverseObj, hk, Bool.false_eq_true, if_false] using h2

theorem traverseArr_sim {S1 S2 : Type} (fa : Bool)
    (cb1 : S1 → String → Node → String → String × S1)
    (cb2 : S2 → String → Node → String → String × S2)
    (R : S1 → S2 → Prop)
    (hcb : ∀ s q path n v, R s q → R (cb1 s path n v).2 (cb2 q path n v).2) :
    ∀ (xs : List JSON) (i : Nat) (s : S1) (q : S2) (path : String)
      (t : Option Node),
      R s q →
      R (traverseArr fa cb1 s path t i xs).2 (traverseArr fa cb2 q path t i xs).2
  | [], _, _, _, _, _, h => h
  | v :: rest, i, s, q, path, t, h => by
    cases hk : keepMember fa (matchChild t (toString i)) with
    | true =>
      have h1 := traverseJSON_sim fa cb1 cb2 R hcb v s q (path ++ "/" ++ toString i)
        (matchChild t (toString i)) h
      have h2 := traverseArr_sim fa cb1 cb2 R hcb rest (i + 1) _ _ path t h1
      simpa only [traverseArr, hk, if_true] using h2
    | false =>
      have h2 := traverseArr_sim fa cb1 cb2 R hcb rest (i + 1) s q path t h
      simpa only [traverseArr, hk, Bool.false_eq_true, if_false] using h2

end

/-! ### The document-order preload outcomes of one Apply run -/

/-- Trace state: the oaRoute cache, plus one Boolean per preload-selected
relation whose URL parsed, true when the preload-hint fallback was used
and false when the relation was pushed (or already pushed), in document
order. -/
structure TraceState where
  oaRoute : Option Route
  oaRouteTested : Bool
  events : List Bool

/-- Event-recording mirror of applyCallback. -/
def traceCallback (cfg : Config) (osc : Oracles) (pusher : Option Pusher)
    (outcome : PushOutcome) (q : TraceState) (path : String) (n : Node)
    (val : String) : String × TraceState :=
  let oaRoute := getOpenAPIRoute cfg.openAPIConfigured osc q.oaRoute q.oaRouteTested
  let q1 : TraceState := { q with oaRoute := oaRoute, oaRouteTested := true }
  match parseRelation osc path val oaRoute with
  | .error _ => ("", q1)
  | .ok r =>
    if n.preloadSel then
      ("", { q1 with
              events := q1.events ++ [!pushedDecision cfg.maxPushes pusher r.1 outcome] })
    else ("", q1)

/-- The same traversal with the event-recording callback. -/
def traceTraversal (cfg : Config) (osc : Oracles)
    (parse : List String → Option SfvList) (pusher : Option Pusher)
    (outcome : PushOutcome) (req : Request) (body : JSON) : JSON × TraceState :=
  let e := extractFromRequest parse req
  traverseJSON (!e.fields.isEmpty) (traceCallback cfg osc pusher outcome)
    ⟨none, false, []⟩ "" (some (applyTree e)) body

/-- The fallback/pushed events of one Apply run, in document order. -/
def preloadFallbackEvents (cfg : Config) (osc : Oracles)
    (parse : List String → Option SfvList) (pusher : Option Pusher)
    (outcome : PushOutcome) (req : Request) (body : JSON) : List Bool :=
  (traceTraversal cfg osc parse pusher outcome req body).2.events

/-- The last element of a Boolean list, with a default. -/
def lastD (l : List Bool) (d : Bool) : Bool := (l.getLast?).getD d

theorem lastD_concat (l : List Bool) (b d : Bool) : lastD (l ++ [b]) d = b := by
  simp [lastD]

/-! ### Header membership helpers -/

theorem mem_addHeader (p : String × String) (h : Headers) (k v : String) :
    p ∈ addHeader h k v ↔ p ∈ h ∨ p = (k, v) := by
  simp [addHeader]

theorem mem_setHeader (p : String × String) (h : Headers) (k v : String)
    (hne : p.1 ≠ k) : p ∈ setHeader h k v ↔ p ∈ h := by
  simp only [setHeader, List.mem_append, List.mem_filter, List.mem_singleton]
  constructor
  · rintro (⟨hp, _⟩ | rfl)
    · exact hp
    · exact absurd rfl hne
  · intro hp
    exact Or.inl ⟨hp, by simpa using hne⟩

/-- push's only header side effect is appending Link headers. -/
theorem pushChecked_headers (maxPushes : Int) (apiUrl : String)
    (pusher : Option Pusher) (u : URL) (outcome : PushOutcome) (h : Headers) :
    (pushChecked maxPushes apiUrl pusher u outcome h).2 = h ∨
      ∃ v, (pushChecked maxPushes apiUrl pusher u outcome h).2 =
        h ++ [("Link", v)] := by
  unfold pushChecked addPreloadHeader addHeader
  split
  · exact Or.inr ⟨_, rfl⟩
  · cases pusher with
    | none => exact Or.inr ⟨_, rfl⟩
    | some p =>
      simp only
      match outcome u.rep with
      | none => exact Or.inl rfl
      | some .alreadyPushed => exact Or.inl rfl
      | some .other => exact Or.inr ⟨_, rfl⟩

/-- The correspondence between Apply's real traversal state and the trace
state: same oaRoute cache, the usePreloadLinks flag equals the last recorded
event (false when none), and no `Vary: Preload` pair has crept into the
headers (push only ever appends Link headers). -/
def applyTraceRel (s : ApplyState) (q : TraceState) : Prop :=
  s.oaRoute = q.oaRoute ∧ s.oaRouteTested = q.oaRouteTested ∧
    s.usePreloadLinks = lastD q.events false ∧
    ("Vary", "Preload") ∉ s.headers

theorem applyCallback_trace (cfg : Config) (osc : Oracles)
    (pusher : Option Pusher) (outcome : PushOutcome) (pq fq : Bool)
    (s : ApplyState) (q : TraceState) (path : String) (n : Node) (v : String)
    (h : applyTraceRel s q) :
    applyTraceRel (applyCallback cfg osc pusher outcome pq fq s path n v).2
      (traceCallback cfg osc pusher outcome q path n v).2 := by
  obtain ⟨h1, h2, h3, h4⟩ := h
  unfold applyCallback traceCallback
  rw [h1, h2]
  cases hpr : parseRelation osc path v
      (getOpenAPIRoute cfg.openAPIConfigured osc q.oaRoute q.oaRouteTested) with
  | error e =>
    simp only [hpr]
    exact ⟨rfl, rfl, h3, h4⟩
  | ok r =>
    simp only [hpr]
    cases hn : n.preloadSel with
    | false =>
      simp only [Bool.false_eq_true, if_false]
      exact ⟨rfl, rfl, h3, h4⟩
    | true =>
      simp only [if_true]
      refine ⟨rfl, rfl, ?_, ?_⟩
      · simp only [lastD_concat, pushChecked_fst]
      · rcases pushChecked_headers cfg.maxPushes cfg.apiUrl pusher r.1 outcome
            s.headers with heq | ⟨lv, heq⟩
        · simpa only [heq] using h4
        · simp only [heq, List.mem_append, List.mem_singleton]
          rintro (hin | hev)
          · exact h4 hin
          · simp at hev

/-- C1 (amended): in a successful Apply run, the returned headers contain
`Vary: Preload` iff the LAST preload-selected relation whose URL parsed was
emitted as a preload-hint fallback rather than pushed: the source overwrites
`usePreloadLinks` with the negated push result at each relation, so a
request all of whose relations were pushed successfully (scenario B) gets no
`Vary: Preload`, and an earlier fallback is erased by a later successful
push. -/
theorem claimC1_vary_preload_amended (cfg : Config) (osc : Oracles)
    (parse : List String → Option SfvList) (pusher : Option Pusher)
    (outcome : PushOutcome) (req : Request) (body : JSON)
    (responseHeaders : Headers) (b : JSON) (h : Headers)
    (hvp : ("Vary", "Preload") ∉ responseHeaders)
    (happ : Apply cfg osc parse pusher outcome req (.ok body) responseHeaders
      = .ok (b, h)) :
    (("Vary", "Preload") ∈ h ↔
      lastD (preloadFallbackEvents cfg osc parse pusher outcome req body) false
        = true) := by
  have key : applyTraceRel
      (applyTraversal cfg osc parse pusher outcome req responseHeaders body).2
      (traceTraversal cfg osc parse pusher outcome req body).2 :=
    traverseJSON_sim _ _ _ applyTraceRel
      (fun s q path n v hr =>
        applyCallback_trace cfg osc pusher outcome _ _ s q path n v hr)
      body _ _ "" _ ⟨rfl, rfl, rfl, hvp⟩
  obtain ⟨-, -, hflag, hmem⟩ := key
  simp only [Apply, Except.ok.injEq, Prod.mk.injEq] at happ
  obtain ⟨hb, hh⟩ := happ
  rw [← hh]
  simp only [preloadFallbackEvents]
  rw [hflag]
  have hcl : (("Vary", "Preload") : String × String).1 ≠ "Content-Length" := by
    decide
  cases hl : lastD (traceTraversal cfg osc parse pusher outcome req body).2.events
      false with
  | true =>
    cases hfh : (extractFromRequest parse req).fieldsHeader <;>
      simp [hfh, mem_addHeader, mem_setHeader _ _ _ _ hcl]
  | false =>
    cases hfh : (extractFromRequest parse req).fieldsHeader <;>
      simp [hfh, mem_addHeader, mem_setHeader _ _ _ _ hcl, hmem]

/-! ### Fixtures for concrete evaluations -/

/-- Default configuration: unlimited pushes, no api url, no OpenAPI file. -/
def fxCfg : Config := ⟨-1, "", false⟩

/-- Oracles for a plain hypermedia API: url.Parse keeps the string and marks
it relative, no OpenAPI route, the rewriter is the identity. -/
def fxOsc : Oracles :=
  ⟨fun s => some ⟨s, false⟩, none, fun _ _ _ => "", fun u _ => u⟩

/-- A structured-list parser that accepts every value list as-is. -/
def fxParse : List String → Option SfvList := fun l => some l

/-- A live pusher. -/
def fxPusher : Option Pusher := some ⟨"p1"⟩

/-- Push outcome: every push succeeds. -/
def fxOutcomeOk : PushOutcome := fun _ => none

/-- Push outcome: every push fails (generic failure). -/
def fxOutcomeFail : PushOutcome := fun _ => some .other

/-- A request carrying Preload: /author as a header only. -/
def fxReqPreloadHeader : Request := ⟨[], [], ["/author"], []⟩

/-- The document of spec scenario B. -/
def fxBody : JSON := .obj [("author", .str "/users/5")]

/-! ### Claim C2 -/

/-- C2, counterexample: `IsValidResponse` accepts status 300 (the guard is
`responseStatus > 300`, not `>= 300`), although 300 is not a 2xx success,
so the claimed iff fails at status 300 with a JSON content type, no
no-transform and no Prefer header. -/
theorem claimC2_counterexample :
    IsValidResponse none 300 "application/json" "" = true ∧
      ¬(200 ≤ (300 : Int) ∧ (300 : Int) < 300) := by
  exact ⟨by decide, by decide⟩

/-- C2 (amended): IsValidResponse returns true iff the status lies between
200 and 300 INCLUSIVE (not only 2xx: 300 is also accepted), the
Content-Type matches the JSON word regexp, the Cache-Control does not
contain no-transform, and either no Prefer header is present or some Prefer
value indicates the json-pointer selector syntax. -/
theorem claimC2_isValidResponse_amended (prefers : Option (List String))
    (status : Int) (ct cc : String) :
    IsValidResponse prefers status ct cc = true ↔
      ((200 ≤ status ∧ status ≤ 300) ∧ jsonMatch ct = true ∧
        notransformMatch cc = false ∧
        (prefers = none ∨
          ∃ ps, prefers = some ps ∧ ∃ p ∈ ps, preferMatch p = true)) := by
  unfold IsValidResponse
  split
  next hcond =>
    constructor
    · intro hfalse
      cases hfalse
    · rintro ⟨⟨h1, h2⟩, h3, h4, -⟩
      rcases hcond with hc | hc | hc | hc
      · omega
      · omega
      · rw [h3] at hc
        cases hc
      · rw [h4] at hc
        cases hc
  next hcond =>
    push_neg at hcond
    obtain ⟨hs1, hs2, hj, hn⟩ := hcond
    have hj2 : jsonMatch ct = true := by
      cases hJ : jsonMatch ct
      · exact absurd hJ hj
      · rfl
    have hn2 : notransformMatch cc = false := by
      cases hN : notransformMatch cc
      · rfl
      · exact absurd hN hn
    cases prefers with
    | none => simp [hj2, hn2]; omega
    | some ps =>
      simp only [List.any_eq_true, Option.some.injEq, reduceCtorEq,
        false_or]
      constructor
      · rintro ⟨p, hmem, hmatch⟩
        exact ⟨⟨by omega, by omega⟩, hj2, hn2, ps, rfl, p, hmem, hmatch⟩
      · rintro ⟨-, -, -, ps2, hps, p, hmem, hmatch⟩
        cases hps
        exact ⟨p, hmem, hmatch⟩

/-! ### Claim C8 -/

/-- C8: Apply returns an error iff reading the response body failed; with a
readable body it always returns ok, whatever the relation-parse, OpenAPI
and push oracles do during traversal. -/
theorem claimC8_error_iff_read_fails (cfg : Config) (osc : Oracles)
    (parse : List String → Option SfvList) (pusher : Option Pusher)
    (outcome : PushOutcome) (req : Request) (readResult : Except IOErr JSON)
    (rh : Headers) (e : IOErr) :
    Apply cfg osc parse pusher outcome req readResult rh = .error e ↔
      readResult = .error e := by
  cases readResult with
  | error e2 => simp [Apply]
  | ok body => simp [Apply]

/-! ### Claim C9 -/

/-- C9: header-over-query precedence applies only when the header parses:
if the Fields (resp. Preload) header is present but fails to parse as a
structured list, extractFromRequest falls back to the query form and, when
that parses, uses it as the directive. -/
theorem claimC9_header_parse_fallback (parse : List String → Option SfvList)
    (req : Request) (lf lp : SfvList)
    (hfhne : req.fieldsHeaderVals ≠ [])
    (hfh : parse req.fieldsHeaderVals = none)
    (hfqne : req.fieldsQueryVals ≠ [])
    (hfq : parse req.fieldsQueryVals = some lf)
    (hphne : req.preloadHeaderVals ≠ [])
    (hph : parse req.preloadHeaderVals = none)
    (hpqne : req.preloadQueryVals ≠ [])
    (hpq : parse req.preloadQueryVals = some lp) :
    (extractFromRequest parse req).fields = lf ∧
      (extractFromRequest parse req).fieldsHeader = false ∧
      (extractFromRequest parse req).fieldsQuery = true ∧
      (extractFromRequest parse req).preload = lp ∧
      (extractFromRequest parse req).preloadHeader = false ∧
      (extractFromRequest parse req).preloadQuery = true := by
  unfold extractFromRequest
  simp [hfhne, hfh, hfqne, hfq, hphne, hph, hpqne, hpq]

/-- C9, witness at a concrete request: malformed headers, valid query
forms. -/
theorem claimC9_witness :
    (extractFromRequest
        (fun l => if l = ["(bad"] then none else some l)
        ⟨["(bad"], ["/title"], ["(bad"], ["/author"]⟩).fields = ["/title"] ∧
      (extractFromRequest
        (fun l => if l = ["(bad"] then none else some l)
        ⟨["(bad"], ["/title"], ["(bad"], ["/author"]⟩).fieldsHeader = false ∧
      (extractFromRequest
        (fun l => if l = ["(bad"] then none else some l)
        ⟨["(bad"], ["/title"], ["(bad"], ["/author"]⟩).fieldsQuery = true ∧
      (extractFromRequest
        (fun l => if l = ["(bad"] then none else some l)
        ⟨["(bad"], ["/title"], ["(bad"], ["/author"]⟩).preload = ["/author"] ∧
      (extractFromRequest
        (fun l => if l = ["(bad"] then none else some l)
        ⟨["(bad"], ["/title"], ["(bad"], ["/author"]⟩).preloadHeader = false ∧
      (extractFromRequest
        (fun l => if l = ["(bad"] then none else some l)
        ⟨["(bad"], ["/title"], ["(bad"], ["/author"]⟩).preloadQuery = true :=
  claimC9_header_parse_fallback _ _ _ _
    (by decide) (by decide) (by decide) (by decide)
    (by decide) (by decide) (by decide) (by decide)

/-! ### Claim C6 -/

/-- C6, counterexample: a request carrying the Fields directive both as a
header and as a query parameter for which the header value is malformed:
the query form is used (fieldsQuery is set and the query list is taken),
contradicting "the header form is used and the query form is ignored". -/
theorem claimC6_counterexample :
    (extractFromRequest (fun l => if l = ["(bad"] then none else some l)
        ⟨["(bad"], ["/ok"], [], []⟩).fields = ["/ok"] ∧
      (extractFromRequest (fun l => if l = ["(bad"] then none else some l)
        ⟨["(bad"], ["/ok"], [], []⟩).fieldsHeader = false ∧
      (extractFromRequest (fun l => if l = ["(bad"] then none else some l)
        ⟨["(bad"], ["/ok"], [], []⟩).fieldsQuery = true := by
  exact ⟨rfl, rfl, rfl⟩

/-- C6 (amended): when the header value parses as a structured list, the
header form is used and the query form is ignored (only when the header is
absent or malformed does the query form apply); header and query values are
never merged into one list. -/
theorem claimC6_header_precedence_amended
    (parse : List String → Option SfvList) (req : Request) (lf lp : SfvList)
    (hfne : req.fieldsHeaderVals ≠ [])
    (hf : parse req.fieldsHeaderVals = some lf)
    (hpne : req.preloadHeaderVals ≠ [])
    (hp : parse req.preloadHeaderVals = some lp) :
    (extractFromRequest parse req).fields = lf ∧
      (extractFromRequest parse req).fieldsHeader = true ∧
      (extractFromRequest parse req).fieldsQuery = false ∧
      (extractFromRequest parse req).preload = lp ∧
      (extractFromRequest parse req).preloadHeader = true ∧
      (extractFromRequest parse req).preloadQuery = false := by
  unfold extractFromRequest
  simp [hfne, hf, hpne, hp]

/-- C6, witness: both surfaces present and the headers parse; the header
lists win and the query flags stay false. -/
theorem claimC6_witness :
    (extractFromRequest (fun l => some l)
        ⟨["/h1"], ["/q1"], ["/h2"], ["/q2"]⟩).fields = ["/h1"] ∧
      (extractFromRequest (fun l => some l)
        ⟨["/h1"], ["/q1"], ["/h2"], ["/q2"]⟩).fieldsHeader = true ∧
      (extractFromRequest (fun l => some l)
        ⟨["/h1"], ["/q1"], ["/h2"], ["/q2"]⟩).fieldsQuery = false ∧
      (extractFromRequest (fun l => some l)
        ⟨["/h1"], ["/q1"], ["/h2"], ["/q2"]⟩).preload = ["/h2"] ∧
      (extractFromRequest (fun l => some l)
        ⟨["/h1"], ["/q1"], ["/h2"], ["/q2"]⟩).preloadHeader = true ∧
      (extractFromRequest (fun l => some l)
        ⟨["/h1"], ["/q1"], ["/h2"], ["/q2"]⟩).preloadQuery = false :=
  claimC6_header_precedence_amended _ _ _ _
    (by decide) (by decide) (by decide) (by decide)

/-! ### Claim C3 -/

/-- C3: for every relation push handles without pushing (and without
panicking), exactly one `Link: <url>; rel=preload; as=fetch` header is
appended, and the `; nopush` suffix is present iff pushing was categorically
unavailable — push budget zero or absolute (cross-origin) URL — and absent
when the stored pusher is a typed nil or the push attempt itself failed. -/
theorem claimC3_link_fallback (maxPushes : Int) (apiUrl : String)
    (ctxVal : Option (Option Pusher)) (u : URL) (outcome : PushOutcome)
    (h h2 : Headers) (pushed : Bool)
    (hres : push maxPushes apiUrl ctxVal u outcome h = some (pushed, h2))
    (hnot : pushed = false) :
    ∃ s, h2 = h ++
        [("Link", "<" ++ (if apiUrl.length > 0 then apiUrl ++ u.rep else u.rep)
          ++ ">; rel=preload; as=fetch" ++ s)] ∧
      (s = "; nopush" ↔ (maxPushes = 0 ∨ u.isAbs = true)) ∧
      (s = "" ↔ ¬(maxPushes = 0 ∨ u.isAbs = true)) := by
  subst hnot
  unfold push addPreloadHeader addHeader at hres
  by_cases hc : maxPushes = 0 ∨ u.isAbs = true
  · rw [if_pos hc] at hres
    simp only [Option.some.injEq, Prod.mk.injEq] at hres
    refine ⟨"; nopush", ?_, by simpa using hc, by simp [hc]⟩
    rw [← hres.2]
    simp
  · rw [if_neg hc] at hres
    match ctxVal with
    | none => cases hres
    | some none =>
      simp only [Option.some.injEq, Prod.mk.injEq] at hres
      refine ⟨"", ?_, by simp [hc], by simpa using hc⟩
      rw [← hres.2]
      simp
    | some (some p) =>
      cases hout : outcome u.rep with
      | none =>
        rw [hout] at hres
        simp at hres
      | some perr =>
        cases perr with
        | alreadyPushed =>
          rw [hout] at hres
          simp at hres
        | other =>
          rw [hout] at hres
          simp only [Option.some.injEq, Prod.mk.injEq] at hres
          refine ⟨"", ?_, by simp [hc], by simpa using hc⟩
          rw [← hres.2]
          simp

/-- C3, witness: push budget zero — one Link header with the nopush
suffix. -/
theorem claimC3_witness :
    ∃ s, ([("X", "y")] : Headers) ++
        [("Link", "<" ++ (if ("" : String).length > 0 then "" ++ "/users/5"
            else "/users/5") ++ ">; rel=preload; as=fetch" ++ s)] = [("X", "y")] ++
        [("Link", "<" ++ (if ("" : String).length > 0 then "" ++ "/users/5"
            else "/users/5") ++ ">; rel=preload; as=fetch" ++ s)] ∧
      (s = "; nopush" ↔ ((0 : Int) = 0 ∨ false = true)) ∧
      (s = "" ↔ ¬((0 : Int) = 0 ∨ false = true)) := by
  obtain ⟨s, h1, h2, h3⟩ := claimC3_link_fallback 0 "" (some none) ⟨"/users/5", false⟩
    (fun _ => none) [("X", "y")]
    ([("X", "y")] ++ [("Link", "</users/5>; rel=preload; as=fetch; nopush")])
    false rfl rfl
  exact ⟨s, rfl, h2, h3⟩

/-! ### Claim C4 -/

/-- C4: when the push attempt fails with the already-pushed error, push
returns true (treated as success) and leaves the response headers exactly
as they were: no Link header, no other response-header side effect. -/
theorem claimC4_already_pushed (maxPushes : Int) (apiUrl : String)
    (p : Pusher) (u : URL) (outcome : PushOutcome) (h : Headers)
    (hmp : maxPushes ≠ 0) (habs : u.isAbs = false)
    (hout : outcome u.rep = some .alreadyPushed) :
    push maxPushes apiUrl (some (some p)) u outcome h = some (true, h) := by
  unfold push
  rw [if_neg (by simp [hmp, habs])]
  simp [hout]

/-- C4, witness. -/
theorem claimC4_witness :
    push (-1) "" (some (some ⟨"p1"⟩)) ⟨"/users/5", false⟩
        (fun _ => some .alreadyPushed) [("A", "b")] = some (true, [("A", "b")]) :=
  claimC4_already_pushed (-1) "" ⟨"p1"⟩ ⟨"/users/5", false⟩
    (fun _ => some .alreadyPushed) [("A", "b")] (by decide) (by decide) (by rfl)

/-! ### Claim C10 -/

/-- C10: push performs an unchecked type assertion on the request-context
value.  If the context was not produced by CreateRequestContext (the ctxKey
entry is missing), then for any relative relation with a nonzero push
budget, push panics (modelled as the `none` result) instead of falling back
to a preload hint.  The nil check only guards a stored typed-nil pusher,
for which push does fall back; and CreateRequestContext always stores an
entry. -/
theorem claimC10_push_panics_without_context (maxPushes : Int)
    (apiUrl : String) (u : URL) (outcome : PushOutcome) (h : Headers)
    (hmp : maxPushes ≠ 0) (habs : u.isAbs = false) :
    push maxPushes apiUrl none u outcome h = none ∧
      push maxPushes apiUrl (some none) u outcome h =
        some (false, addPreloadHeader apiUrl h u.rep false) ∧
      (∀ p : Option Pusher, CreateRequestContext p ≠ none) := by
  refine ⟨?_, ?_, fun p => by simp [CreateRequestContext]⟩ <;>
    · unfold push
      rw [if_neg (by simp [hmp, habs])]

/-- C10, witness. -/
theorem claimC10_witness :
    push (-1) "" none ⟨"/users/5", false⟩ (fun _ => none) [] = none ∧
      push (-1) "" (some none) ⟨"/users/5", false⟩ (fun _ => none) [] =
        some (false, addPreloadHeader "" [] ("/users/5" : String) false) ∧
      (∀ p : Option Pusher, CreateRequestContext p ≠ none) :=
  claimC10_push_panics_without_context (-1) "" ⟨"/users/5", false⟩
    (fun _ => none) [] (by decide) (by decide)

/-! ### Claim C5 -/

/-- C5: the document-rewrite policy at a preload-selected string leaf whose
relation parses.  When a directive arrived via a query parameter
(preloadQuery or fieldsQuery) and the relation was not synthesized through
the OpenAPI lookup, the value is replaced by the rewritten relation URL
string; when both directives arrived via headers only (both query flags
false) the original literal value is preserved; and a relation synthesized
via OpenAPI is never rewritten, even under query-parameter directives. -/
theorem claimC5_rewrite_policy (cfg : Config) (osc : Oracles)
    (pusher : Option Pusher) (outcome : PushOutcome) (pq fq fa : Bool)
    (s : ApplyState) (path : String) (n : Node) (val : String)
    (u : URL) (useOA : Bool)
    (hn : n.preloadSel = true)
    (hpr : parseRelation osc path val
      (getOpenAPIRoute cfg.openAPIConfigured osc s.oaRoute s.oaRouteTested) =
      .ok (u, useOA)) :
    ((pq || fq) = true → useOA = false → (osc.urlRewriter u path).rep ≠ "" →
      (traverseJSON fa (applyCallback cfg osc pusher outcome pq fq) s path
        (some n) (.str val)).1 = .str (osc.urlRewriter u path).rep) ∧
    (pq = false → fq = false →
      (traverseJSON fa (applyCallback cfg osc pusher outcome pq fq) s path
        (some n) (.str val)).1 = .str val) ∧
    (useOA = true →
      (traverseJSON fa (applyCallback cfg osc pusher outcome pq fq) s path
        (some n) (.str val)).1 = .str val) := by
  unfold traverseJSON applyCallback
  simp only [hn, if_true, hpr]
  refine ⟨?_, ?_, ?_⟩
  · intro hq hoa hne
    simp [hq, hoa, hne]
  · intro hpq hfq
    simp [hpq, hfq]
  · intro hoa
    simp [hoa]

/-- C5, witness: a query-surfaced Preload directive rewrites the matched
value to the rewritten URL (here the rewriter appends a marker). -/
theorem claimC5_witness :
    ((true || false) = true → false = false →
      ((Oracles.mk (fun s2 => some ⟨s2, false⟩) none (fun _ _ _ => "")
          (fun u2 _ => ⟨u2.rep ++ "?x", u2.isAbs⟩)).urlRewriter
        ⟨"/users/5", false⟩ "/author").rep ≠ "" →
      (traverseJSON false
        (applyCallback fxCfg
          (Oracles.mk (fun s2 => some ⟨s2, false⟩) none (fun _ _ _ => "")
            (fun u2 _ => ⟨u2.rep ++ "?x", u2.isAbs⟩)) fxPusher fxOutcomeOk
          true false)
        ⟨false, none, false, []⟩ "/author" (some (.mk true false []))
        (.str "/users/5")).1 =
        .str ((Oracles.mk (fun s2 => some ⟨s2, false⟩) none (fun _ _ _ => "")
          (fun u2 _ => ⟨u2.rep ++ "?x", u2.isAbs⟩)).urlRewriter
            ⟨"/users/5", false⟩ "/author").rep) ∧
    (true = false → false = false →
      (traverseJSON false
        (applyCallback fxCfg
          (Oracles.mk (fun s2 => some ⟨s2, false⟩) none (fun _ _ _ => "")
            (fun u2 _ => ⟨u2.rep ++ "?x", u2.isAbs⟩)) fxPusher fxOutcomeOk
          true false)
        ⟨false, none, false, []⟩ "/author" (some (.mk true false []))
        (.str "/users/5")).1 = .str "/users/5") ∧
    (false = true →
      (traverseJSON false
        (applyCallback fxCfg
          (Oracles.mk (fun s2 => some ⟨s2, false⟩) none (fun _ _ _ => "")
            (fun u2 _ => ⟨u2.rep ++ "?x", u2.isAbs⟩)) fxPusher fxOutcomeOk
          true false)
        ⟨false, none, false, []⟩ "/author" (some (.mk true false []))
        (.str "/users/5")).1 = .str "/users/5") :=
  claimC5_rewrite_policy fxCfg
    (Oracles.mk (fun s2 => some ⟨s2, false⟩) none (fun _ _ _ => "")
      (fun u2 _ => ⟨u2.rep ++ "?x", u2.isAbs⟩)) fxPusher fxOutcomeOk
    true false false ⟨false, none, false, []⟩ "/author" (.mk true false [])
    "/users/5" ⟨"/users/5", false⟩ false (by rfl) (by rfl)

/-! ### Claim C7 -/

theorem extract_preload_malformed (parse : List String → Option SfvList)
    (req : Request)
    (hph : parse req.preloadHeaderVals = none)
    (hpq : parse req.preloadQueryVals = none) :
    extractFromRequest parse req =
      extractFromRequest parse
        ⟨req.fieldsHeaderVals, req.fieldsQueryVals, [], []⟩ := by
  unfold extractFromRequest
  by_cases h1 : req.preloadHeaderVals = [] <;>
    by_cases h2 : req.preloadQueryVals = [] <;>
      simp [h1, h2, hph, hpq]

theorem extract_fields_malformed (parse : List String → Option SfvList)
    (req : Request)
    (hfh : parse req.fieldsHeaderVals = none)
    (hfq : parse req.fieldsQueryVals = none) :
    extractFromRequest parse req =
      extractFromRequest parse
        ⟨[], [], req.preloadHeaderVals, req.preloadQueryVals⟩ := by
  unfold extractFromRequest
  by_cases h1 : req.fieldsHeaderVals = [] <;>
    by_cases h2 : req.fieldsQueryVals = [] <;>
      simp [h1, h2, hfh, hfq]

/-- Apply only observes the request through extractFromRequest. -/
theorem Apply_congr_extract (cfg : Config) (osc : Oracles)
    (parse : List String → Option SfvList) (pusher : Option Pusher)
    (outcome : PushOutcome) (req req2 : Request)
    (readResult : Except IOErr JSON) (rh : Headers)
    (hE : extractFromRequest parse req = extractFromRequest parse req2) :
    Apply cfg osc parse pusher outcome req readResult rh =
      Apply cfg osc parse pusher outcome req2 readResult rh := by
  unfold Apply applyTraversal
  rw [hE]

/-- C7: a Preload (resp. Fields) directive whose header and query values
both fail to parse as structured lists is treated as absent — Apply behaves
exactly as on the request with that directive's surfaces removed, so
nothing is pruned or pushed because of it — and no error is surfaced: with
a readable body Apply still returns a rewritten body and a nil error. -/
theorem claimC7_malformed_directive_absent (cfg : Config) (osc : Oracles)
    (parse : List String → Option SfvList) (pusher : Option Pusher)
    (outcome : PushOutcome) (req : Request) (body : JSON) (rh : Headers) :
    ((parse req.preloadHeaderVals = none → parse req.preloadQueryVals = none →
      Apply cfg osc parse pusher outcome req (.ok body) rh =
        Apply cfg osc parse pusher outcome
          ⟨req.fieldsHeaderVals, req.fieldsQueryVals, [], []⟩ (.ok body) rh) ∧
    (parse req.fieldsHeaderVals = none → parse req.fieldsQueryVals = none →
      Apply cfg osc parse pusher outcome req (.ok body) rh =
        Apply cfg osc parse pusher outcome
          ⟨[], [], req.preloadHeaderVals, req.preloadQueryVals⟩ (.ok body) rh) ∧
    ∃ out, Apply cfg osc parse pusher outcome req (.ok body) rh = .ok out) := by
  refine ⟨?_, ?_, ?_⟩
  · intro hph hpq
    exact Apply_congr_extract cfg osc parse pusher outcome req _ _ rh
      (extract_preload_malformed parse req hph hpq)
  · intro hfh hfq
    exact Apply_congr_extract cfg osc parse pusher outcome req _ _ rh
      (extract_fields_malformed parse req hfh hfq)
  · exact ⟨_, rfl⟩

/-- C7, witness: both directives present but malformed everywhere; Apply
equals the directive-free runs and returns ok. -/
theorem claimC7_witness :
    (Apply fxCfg fxOsc (fun l => if l = ["(bad"] then none else some l)
        fxPusher fxOutcomeOk ⟨["(bad"], ["(bad"], ["(bad"], ["(bad"]⟩
        (.ok fxBody) [] =
      Apply fxCfg fxOsc (fun l => if l = ["(bad"] then none else some l)
        fxPusher fxOutcomeOk ⟨["(bad"], ["(bad"], [], []⟩ (.ok fxBody) []) ∧
    (Apply fxCfg fxOsc (fun l => if l = ["(bad"] then none else some l)
        fxPusher fxOutcomeOk ⟨["(bad"], ["(bad"], ["(bad"], ["(bad"]⟩
        (.ok fxBody) [] =
      Apply fxCfg fxOsc (fun l => if l = ["(bad"] then none else some l)
        fxPusher fxOutcomeOk ⟨[], [], ["(bad"], ["(bad"]⟩ (.ok fxBody) []) ∧
    ∃ out, Apply fxCfg fxOsc (fun l => if l = ["(bad"] then none else some l)
        fxPusher fxOutcomeOk ⟨["(bad"], ["(bad"], ["(bad"], ["(bad"]⟩
        (.ok fxBody) [] = .ok out := by
  obtain ⟨h1, h2, h3⟩ := claimC7_malformed_directive_absent fxCfg fxOsc
    (fun l => if l = ["(bad"] then none else some l) fxPusher fxOutcomeOk
    ⟨["(bad"], ["(bad"], ["(bad"], ["(bad"]⟩ fxBody []
  exact ⟨h1 (by decide) (by decide), h2 (by decide) (by decide), h3⟩

/-! ### Claim C1 -/

/-- C1, counterexample: spec scenario B — one preload-selected relation,
handled and pushed successfully (the event trace records exactly one
pushed relation) — yet the headers returned by Apply contain no
`Vary: Preload`: the source sets usePreloadLinks to the negation of the
push result, so a successful push clears it. -/
theorem claimC1_counterexample :
    preloadFallbackEvents fxCfg fxOsc fxParse fxPusher fxOutcomeOk
        fxReqPreloadHeader fxBody = [false] ∧
      Apply fxCfg fxOsc fxParse fxPusher fxOutcomeOk fxReqPreloadHeader
          (.ok fxBody) [] =
        .ok (.obj [("author", .str "/users/5")], [("Content-Length", "21")]) ∧
      ("Vary", "Preload") ∉ ([("Content-Length", "21")] : Headers) := by
  exact ⟨rfl, rfl, by decide⟩

/-- C1, witness for the amended theorem: the same relation with a failing
push — the fallback Link header is emitted and `Vary: Preload` is present,
matching the last (single) event being a fallback. -/
theorem claimC1_witness :
    (("Vary", "Preload") ∈
        ([("Link", "</users/5>; rel=preload; as=fetch"), ("Vary", "Preload"),
          ("Content-Length", "21")] : Headers) ↔
      lastD (preloadFallbackEvents fxCfg fxOsc fxParse fxPusher fxOutcomeFail
        fxReqPreloadHeader fxBody) false = true) :=
  claimC1_vary_preload_amended fxCfg fxOsc fxParse fxPusher fxOutcomeFail
    fxReqPreloadHeader fxBody [] (.obj [("author", .str "/users/5")])
    [("Link", "</users/5>; rel=preload; as=fetch"), ("Vary", "Preload"),
      ("Content-Length", "21")]
    (by decide) (by rfl)

end Vulcain

/-! Sanity checks of the regexp models and the protocol gate. -/
example : Vulcain.jsonMatch "application/json" = true := by decide
example : Vulcain.jsonMatch "application/ld+json; charset=utf-8" = true := by decide
example : Vulcain.jsonMatch "text/html" = false := by decide
example : Vulcain.jsonMatch "application/jsonx" = false := by decide
example : Vulcain.notransformMatch "no-transform" = true := by decide
example : Vulcain.notransformMatch "public, max-age=60" = false := by decide
example : Vulcain.preferMatch "selector=json-pointer" = true := by decide
example : Vulcain.preferMatch "  selector=\"json-pointer\"" = true := by decide
example : Vulcain.preferMatch "selector=css" = false := by decide
example : Vulcain.IsValidResponse none 201 "application/json" "" = true := by decide
example : Vulcain.IsValidResponse none 404 "application/json" "" = false := by decide
example : Vulcain.IsValidResponse (some []) 200 "application/json" "" = false := by decide
